import Mathlib

/-!
Verification of the hs-web API gateway client (`src/lib/api.ts` and the
login page) against its design specification.

The development shallowly embeds the TypeScript client: the browser
session store (localStorage slots for the JWT token and the cached user
record) becomes an explicit `Store` value threaded through each
operation, `fetch` becomes an input `HttpResponse` (or `none` for a
transport failure), and the JavaScript runtime pieces the client leans
on (`JSON.parse`, `JSON.stringify`, string coercion, truthiness) are
modelled by executable Lean functions that follow the JSON grammar.
JSON numbers are modelled as integers (no claim touches fractional
numbers), and a `\uXXXX` escape denoting a surrogate half is rejected
by the parser (Lean characters are Unicode scalar values); neither
restriction is reachable from any statement below.
-/

namespace HsWeb

/-- JSON values as produced by `JSON.parse`.  Object fields keep their
textual order; duplicate keys can occur in the field list and lookup
takes the last binding, matching `JSON.parse`. -/
inductive Json where
  | null : Json
  | bool : Bool → Json
  | num : Int → Json
  | str : String → Json
  | arr : List Json → Json
  | obj : List (String × Json) → Json

/-- JavaScript truthiness of a JSON value (`if (v)`). -/
def jsTruthy : Json → Bool
  | .null => false
  | .bool b => b
  | .num n => n != 0
  | .str s => s != ""
  | .arr _ => true
  | .obj _ => true

/-- Last binding of a key in a field list (duplicate keys in a JSON
text: the last occurrence wins, as in `JSON.parse`). -/
def lookupLast : List (String × Json) → String → Option Json
  | [], _ => none
  | (k1, v) :: rest, k =>
    match lookupLast rest k with
    | some r => some r
    | none => if k1 = k then some v else none

/-- JavaScript property read `j.k` for the property names the client
uses; non-objects have no own properties, so the read yields
`undefined` (here `none`).  (`null.k` throws; the one place the client
can reach that is modelled explicitly at its call site.) -/
def Json.lookupKey : Json → String → Option Json
  | .obj fs, k => lookupLast fs k
  | _, _ => none

/-- Whether every field of an object holds a string — the shape of
the `AuthUser` payload (`id` and `email` strings), with any keys, in
any order, in any number. -/
def allStrFields : List (String × Json) → Bool
  | [] => true
  | (_, .str _) :: rest => allStrFields rest
  | _ => false

/-- JavaScript `String(v)` coercion, for the values that can reach
`localStorage.setItem`.  Arrays join their coerced elements with
commas; `null`/`undefined` elements coerce to the empty string inside
arrays, and plain objects print as `[object Object]`. -/
def jsToString : Json → String
  | .null => "null"
  | .bool b => cond b "true" "false"
  | .num n => toString n
  | .str s => s
  | .arr xs => String.intercalate "," (jsToStringElems xs)
  | .obj _ => "[object Object]"
where
  /-- Element coercion inside an array (`[null]` coerces to `""`). -/
  jsToStringElems : List Json → List String
  | [] => []
  | .null :: rest => "" :: jsToStringElems rest
  | j :: rest => jsToString j :: jsToStringElems rest

/-! ### `JSON.stringify` and `JSON.parse`

The client stores the user record with `JSON.stringify` and reads it
back with `JSON.parse`; the dispatcher parses every non-empty response
body with `JSON.parse`.  Both runtime functions are modelled
executably.  String escaping follows `JSON.stringify`: quote,
backslash and the named control characters get two-character escapes,
the remaining control characters get `\u00XX`. -/

/-- Hexadecimal digit character for a value below 16 (lower case, as
`JSON.stringify` emits). -/
def hexDig (n : Nat) : Char :=
  if n < 10 then Char.ofNat (48 + n) else Char.ofNat (87 + n)

/-- Value of a hexadecimal digit character, if it is one
(`JSON.parse` accepts both cases in `\uXXXX`). -/
def hexVal (c : Char) : Option Nat :=
  if '0' ≤ c ∧ c ≤ '9' then some (c.toNat - 48)
  else if 'a' ≤ c ∧ c ≤ 'f' then some (c.toNat - 87)
  else if 'A' ≤ c ∧ c ≤ 'F' then some (c.toNat - 55)
  else none

/-- Escaping of one string character, as `JSON.stringify` performs it. -/
def escChar (c : Char) : List Char :=
  if c = '"' then ['\\', '"']
  else if c = '\\' then ['\\', '\\']
  else if c = '\x08' then ['\\', 'b']
  else if c = '\x0c' then ['\\', 'f']
  else if c = '\n' then ['\\', 'n']
  else if c = '\r' then ['\\', 'r']
  else if c = '\t' then ['\\', 't']
  else if c.toNat < 0x20 then
    ['\\', 'u', '0', '0', hexDig (c.toNat / 16), hexDig (c.toNat % 16)]
  else [c]

/-- Escaping of a character sequence, as `JSON.stringify` performs it. -/
def escList : List Char → List Char
  | [] => []
  | c :: rest => escChar c ++ escList rest

/-- A JSON string literal (opening quote, escaped body, closing
quote). -/
def quoteEscL (s : String) : List Char :=
  '"' :: (escList s.data ++ ['"'])

mutual

/-- Character sequence emitted by `JSON.stringify` for a JSON value. -/
def stringifyChars : Json → List Char
  | .null => "null".data
  | .bool b => cond b "true".data "false".data
  | .num n => (toString n).data
  | .str s => quoteEscL s
  | .arr xs => '[' :: (stringifyElems xs ++ [']'])
  | .obj fs => '{' :: (stringifyFields fs ++ ['}'])

/-- Object fields, comma-separated. -/
def stringifyFields : List (String × Json) → List Char
  | [] => []
  | [(k, v)] => quoteEscL k ++ ':' :: stringifyChars v
  | (k, v) :: fs =>
    quoteEscL k ++ ':' :: (stringifyChars v ++ ',' :: stringifyFields fs)

/-- Array elements, comma-separated. -/
def stringifyElems : List Json → List Char
  | [] => []
  | [x] => stringifyChars x
  | x :: xs => stringifyChars x ++ ',' :: stringifyElems xs

end

/-- The `JSON.stringify` serialization of a JSON value. -/
def jsonStringify (j : Json) : String :=
  String.mk (stringifyChars j)

/-- JSON whitespace accepted between tokens by `JSON.parse`. -/
def isJsonWs (c : Char) : Bool :=
  c = ' ' || c = '\t' || c = '\n' || c = '\r'

/-- Skip JSON whitespace. -/
def skipWs : List Char → List Char
  | [] => []
  | c :: rest => if isJsonWs c then skipWs rest else c :: rest

/-- Map an optional parse result, prepending a character to the parsed
prefix. -/
def mapCons (c : Char) :
    Option (List Char × List Char) → Option (List Char × List Char)
  | some (l, r) => some (c :: l, r)
  | none => none

/-- Scanning state inside a JSON string literal: an ordinary
position, the position after a backslash, or one of the four
positions inside the hex digits of a `\uXXXX` escape (carrying the
values of the digits already read). -/
inductive StrMode where
  | normal : StrMode
  | esc : StrMode
  | hex0 : StrMode
  | hex1 : Nat → StrMode
  | hex2 : Nat → Nat → StrMode
  | hex3 : Nat → Nat → Nat → StrMode

/-- One-character-per-step scanner for the body of a JSON string
literal, after the opening quote: the decoded characters and the
input remaining after the closing quote.  Unescaped control
characters are a syntax error.  A `\uXXXX` escape denoting a
surrogate half is rejected here (Lean characters are Unicode scalar
values); `JSON.stringify` never emits one, so this does not affect
the round trips proved below. -/
def strScan : StrMode → List Char → Option (List Char × List Char)
  | _, [] => none
  | .normal, c :: rest =>
    if c = '"' then some ([], rest)
    else if c = '\\' then strScan .esc rest
    else if c.toNat < 0x20 then none
    else mapCons c (strScan .normal rest)
  | .esc, e :: rest =>
    if e = '"' then mapCons '"' (strScan .normal rest)
    else if e = '\\' then mapCons '\\' (strScan .normal rest)
    else if e = '/' then mapCons '/' (strScan .normal rest)
    else if e = 'b' then mapCons '\x08' (strScan .normal rest)
    else if e = 'f' then mapCons '\x0c' (strScan .normal rest)
    else if e = 'n' then mapCons '\n' (strScan .normal rest)
    else if e = 'r' then mapCons '\r' (strScan .normal rest)
    else if e = 't' then mapCons '\t' (strScan .normal rest)
    else if e = 'u' then strScan .hex0 rest
    else none
  | .hex0, h :: rest =>
    match hexVal h with
    | some a => strScan (.hex1 a) rest
    | none => none
  | .hex1 a, h :: rest =>
    match hexVal h with
    | some b => strScan (.hex2 a b) rest
    | none => none
  | .hex2 a b, h :: rest =>
    match hexVal h with
    | some c2 => strScan (.hex3 a b c2) rest
    | none => none
  | .hex3 a b c2, h :: rest =>
    match hexVal h with
    | some d =>
      let n := ((a * 16 + b) * 16 + c2) * 16 + d
      if n < 0xd800 ∨ (0xe000 ≤ n ∧ n < 0x110000) then
        mapCons (Char.ofNat n) (strScan .normal rest)
      else none
    | none => none
termination_by structural _ l => l

/-- Body of a JSON string literal, after the opening quote. -/
def parseStrBody (l : List Char) : Option (List Char × List Char) :=
  strScan .normal l

/-- Longest leading run of decimal digits. -/
def takeDigits : List Char → List Char × List Char
  | [] => ([], [])
  | c :: rest =>
    if c.isDigit then
      let (ds, r) := takeDigits rest
      (c :: ds, r)
    else ([], c :: rest)

/-- Numeric value of a digit run. -/
def digitsVal (l : List Char) : Nat :=
  l.foldl (fun acc c => acc * 10 + (c.toNat - 48)) 0

/-- Consume an expected literal word. -/
def expectWord : List Char → List Char → Option (List Char)
  | [], rest => some rest
  | w :: ws, c :: rest => if c = w then expectWord ws rest else none
  | _ :: _, [] => none

/-- Parsing job: a value, the members of an object after `{` (at
least one), or the elements of an array after `[` (at least one). -/
inductive PJob where
  | pval : PJob
  | pmembers : PJob
  | pelems : PJob

/-- Fuel-indexed core of `JSON.parse`.  Every fuel decrement also
consumes at least one input character, so fuel `length + 1` always
suffices.  JSON numbers are modelled as integers: a fraction or an
exponent is not consumed and therefore surfaces as a syntax error
(no claim involves a non-integral number). -/
def parseCore : Nat → PJob → List Char → Option (Json × List Char)
  | 0, _, _ => none
  | f + 1, .pval, cs =>
    match skipWs cs with
    | [] => none
    | c :: rest =>
      if c = '"' then
        match parseStrBody rest with
        | some (l, r) => some (.str (String.mk l), r)
        | none => none
      else if c = '{' then
        match skipWs rest with
        | '}' :: r2 => some (.obj [], r2)
        | r2 => parseCore f .pmembers r2
      else if c = '[' then
        match skipWs rest with
        | ']' :: r2 => some (.arr [], r2)
        | r2 => parseCore f .pelems r2
      else if c = 't' then
        (expectWord ['r', 'u', 'e'] rest).map (fun r => (.bool true, r))
      else if c = 'f' then
        (expectWord ['a', 'l', 's', 'e'] rest).map (fun r => (.bool false, r))
      else if c = 'n' then
        (expectWord ['u', 'l', 'l'] rest).map (fun r => (.null, r))
      else if c = '-' then
        match takeDigits rest with
        | ([], _) => none
        | (ds, r) => some (.num (-(digitsVal ds : Int)), r)
      else if c.isDigit then
        match takeDigits (c :: rest) with
        | ([], _) => none
        | (ds, r) => some (.num (digitsVal ds : Int), r)
      else none
  | f + 1, .pmembers, cs =>
    match skipWs cs with
    | '"' :: r1 =>
      match parseStrBody r1 with
      | some (k, r2) =>
        (match skipWs r2 with
          | ':' :: r3 =>
            match parseCore f .pval r3 with
            | some (v, r4) =>
              (match skipWs r4 with
                | ',' :: r5 =>
                  match parseCore f .pmembers r5 with
                  | some (.obj fs, r6) =>
                    some (.obj ((String.mk k, v) :: fs), r6)
                  | _ => none
                | '}' :: r5 => some (.obj [(String.mk k, v)], r5)
                | _ => none)
            | none => none
          | _ => none)
      | none => none
    | _ => none
  | f + 1, .pelems, cs =>
    match parseCore f .pval cs with
    | some (v, r1) =>
      (match skipWs r1 with
        | ',' :: r2 =>
          match parseCore f .pelems r2 with
          | some (.arr xs, r3) => some (.arr (v :: xs), r3)
          | _ => none
        | ']' :: r2 => some (.arr [v], r2)
        | _ => none)
    | none => none

/-- The `JSON.parse` function; `none` models the thrown `SyntaxError`. -/
def jsonParse (s : String) : Option Json :=
  match parseCore (s.length + 1) .pval s.data with
  | some (j, r) => if skipWs r = [] then some j else none
  | none => none

/-! ### Session store (`src/lib/api.ts`, token management section)

`localStorage` holds two string slots, `hotstart_token` and
`hotstart_user`.  Every accessor first checks
`typeof window !== 'undefined'` and degrades to a no-op / absent
result outside a browser; that check is the boolean `w` below. -/

/-- The two persistent slots (`hotstart_token`, `hotstart_user`).
`localStorage` stores strings, so the user slot holds the serialized
record, not a parsed value. -/
structure Store where
  token : Option String
  user : Option String
deriving DecidableEq, Repr

/-- Source function `getToken`. -/
def getToken (w : Bool) (s : Store) : Option String :=
  if w then s.token else none

/-- Source function `setToken`. -/
def setToken (w : Bool) (tok : String) (s : Store) : Store :=
  if w then { s with token := some tok } else s

/-- Source function `clearToken`: removes both the token and the user slot. -/
def clearToken (w : Bool) (s : Store) : Store :=
  if w then { token := none, user := none } else s

/-- Source function `getStoredUser`.  The source reads the raw slot and returns
`data ? JSON.parse(data) : null`; an unparseable stored string makes
`JSON.parse` throw, which the `Except` error case records.  The
result is the parsed JSON value — the source casts it to `AuthUser`
without any runtime validation. -/
def getStoredUser (w : Bool) (s : Store) : Except String (Option Json) :=
  if w then
    match s.user with
    | none => .ok none
    | some data =>
      if data = "" then .ok none
      else
        match jsonParse data with
        | some j => .ok (some j)
        | none => .error "SyntaxError"
  else .ok none

/-- The `AuthUser` record (`id` and `email` strings). -/
structure AuthUser where
  id : String
  email : String
deriving DecidableEq, Repr

/-- The JSON form of an `AuthUser` literal, `id` field first, as a
direct serialization of the record produces. -/
def userJson (uid uem : String) : Json :=
  .obj [("id", .str uid), ("email", .str uem)]

/-- Source function `setStoredUser`: stores `JSON.stringify(user)`. -/
def setStoredUser (w : Bool) (u : AuthUser) (s : Store) : Store :=
  if w then { s with user := some (jsonStringify (userJson u.id u.email)) }
  else s

/-- Source function `isAuthenticated`: `!!getToken()` — true exactly
when the stored token is truthy (present and non-empty). -/
def isAuthenticated (w : Bool) (s : Store) : Bool :=
  match getToken w s with
  | some t => t != ""
  | none => false

/-! ### Base-URL resolution (`getGatewayUrl`) -/

/-- Source constant `GATEWAY_URL`. -/
def GATEWAY_URL : String := "https://api.hotstart.dev"

/-- Source constant `DEV_GATEWAY_URL`. -/
def DEV_GATEWAY_URL : String := "http://localhost:8787"

/-- The execution environment fixed at process start: the
`NEXT_PUBLIC_API_URL` build-time variable (`none` when undefined),
whether a `window` object exists, and `window.location.hostname`
(meaningful only when it does). -/
structure Env where
  envApiUrl : Option String
  hasWindow : Bool
  hostname : String

/-- Source function `getGatewayUrl`: explicit env variable when truthy (set and
non-empty), else the production gateway in a browser whose hostname
is not `localhost`, else the development gateway.  Evaluated once at
module load into the `API_BASE_URL` constant. -/
def getGatewayUrl (e : Env) : String :=
  match e.envApiUrl with
  | some u =>
    if u ≠ "" then u
    else if e.hasWindow ∧ e.hostname ≠ "localhost" then GATEWAY_URL
    else DEV_GATEWAY_URL
  | none =>
    if e.hasWindow ∧ e.hostname ≠ "localhost" then GATEWAY_URL
    else DEV_GATEWAY_URL

/-! ### Request dispatcher (`apiRequest`) -/

/-- Header record semantics of a JavaScript object literal:
assignment to an existing key replaces its value in place, a fresh key
is appended. -/
def setHeader (hs : List (String × String)) (k v : String) :
    List (String × String) :=
  match hs with
  | [] => [(k, v)]
  | (k1, v1) :: rest =>
    if k1 = k then (k1, v) :: rest else (k1, v1) :: setHeader rest k v

/-- Object spread `\x7b...base, ...extra\x7d`. -/
def objSpread (base extra : List (String × String)) :
    List (String × String) :=
  extra.foldl (fun acc kv => setHeader acc kv.1 kv.2) base

/-- Value of a header key. -/
def headersGet (hs : List (String × String)) (k : String) :
    Option String :=
  (hs.find? (fun kv => kv.1 = k)).map (fun kv => kv.2)

/-- Source interface `RequestOptions` (method, body, headers, skipAuth; `credentials`
does not influence anything modelled here). -/
structure RequestOptions where
  method : String := "GET"
  body : Option Json := none
  headers : List (String × String) := []
  skipAuth : Bool := false

/-- The headers `apiRequest` sends: `Content-Type: application/json`
by default, spread the caller headers over it, then — unless
`skipAuth` — assign `Authorization: Bearer <token>` when the store
holds a truthy token (`if (token)`: present and non-empty). -/
def buildHeaders (w : Bool) (s : Store) (opts : RequestOptions) :
    List (String × String) :=
  let base := objSpread [("Content-Type", "application/json")] opts.headers
  if !opts.skipAuth then
    match getToken w s with
    | some tok =>
      if tok ≠ "" then setHeader base "Authorization" ("Bearer " ++ tok)
      else base
    | none => base
  else base

/-- The `fetch` call `apiRequest` issues. -/
structure FetchCall where
  url : String
  method : String
  headers : List (String × String)
  body : Option String

/-- An HTTP response: status, status text, and the raw body text
(`await response.text()`). -/
structure HttpResponse where
  status : Nat
  statusText : String
  bodyText : String

/-- Computation of `response.ok`: status in the 2xx range. -/
def respOk (status : Nat) : Bool :=
  200 ≤ status ∧ status ≤ 299

/-- How a call through the dispatcher ends: a resolved JSON payload,
a thrown `ApiError` (status, status text, parsed payload), or any
other thrown JavaScript error (`SyntaxError` from `JSON.parse`, the
`TypeError` from reading a property of `null`, a rejected `fetch`). -/
inductive Outcome where
  | ok : Json → Outcome
  | apiErr : Nat → String → Json → Outcome
  | jsErr : String → Outcome

/-- Display message of an `ApiError`:
`data.error || "API Error: <status> <statusText>"`, with the JS string
coercion the `Error` constructor applies to a non-string truthy
value. -/
def apiErrorMessage (status : Nat) (statusText : String) (data : Json) :
    String :=
  match data.lookupKey "error" with
  | some v =>
    if jsTruthy v then jsToString v
    else "API Error: " ++ toString status ++ " " ++ statusText
  | none => "API Error: " ++ toString status ++ " " ++ statusText

/-- Payload extraction from the raw body text: an empty body stands
for an empty object, any other body goes through `JSON.parse`
(`none` models the thrown `SyntaxError`). -/
def parsedBody (text : String) : Option Json :=
  if text = "" then some (Json.obj []) else jsonParse text

/-- Result of one dispatcher call: the fetch that was issued, the
outcome, and the session store after the call. -/
structure CallResult where
  sent : FetchCall
  outcome : Outcome
  store : Store

/-- Source function `apiRequest`.  The `fetch` exchange is an input: `none` models a
transport failure (the promise rejects before any response exists),
`some resp` the received response.  Steps, in source order: build the
URL and headers, serialize the body for non-GET methods when truthy,
await the response, read the body text, parse it (`\x7b\x7d` for an empty
body — `JSON.parse` throws on invalid JSON, and that throw happens
*before* the 401 check), clear the session on status 401, then throw
`ApiError` for a non-2xx status (constructing it reads
`data.error`, which itself throws a `TypeError` when the payload is
JSON `null`), else resolve with the payload. -/
def apiRequest (e : Env) (s : Store) (endpoint : String)
    (opts : RequestOptions) (fetched : Option HttpResponse) :
    CallResult :=
  let url := getGatewayUrl e ++ endpoint
  let requestHeaders := buildHeaders e.hasWindow s opts
  let sentBody :=
    match opts.body with
    | some b =>
      if jsTruthy b ∧ opts.method ≠ "GET" then some (jsonStringify b)
      else none
    | none => none
  let fc : FetchCall :=
    { url := url, method := opts.method, headers := requestHeaders,
      body := sentBody }
  match fetched with
  | none => { sent := fc, outcome := .jsErr "TypeError: fetch failed", store := s }
  | some resp =>
    match parsedBody resp.bodyText with
    | none => { sent := fc, outcome := .jsErr "SyntaxError", store := s }
    | some data =>
      let s1 := if resp.status = 401 then clearToken e.hasWindow s else s
      if respOk resp.status then
        { sent := fc, outcome := .ok data, store := s1 }
      else
        match data with
        | .null => { sent := fc, outcome := .jsErr "TypeError", store := s1 }
        | _ =>
          { sent := fc,
            outcome := .apiErr resp.status resp.statusText data,
            store := s1 }

/-! ### Auth service methods (`authApi`) -/

/-- The store side effect shared by `authApi.login` and
`authApi.register`: `if (response.token) \x7b setToken(response.token);
setStoredUser(response.user); \x7d`.  `response.token` is truthy only
for a present, non-empty (and non-zero, non-false) field;
`setToken`/`setItem` coerce the value to a string, and
`setStoredUser` stores `JSON.stringify(response.user)` —
`JSON.stringify(undefined)` is `undefined`, which `setItem` coerces
to the string `undefined` when the response carried no user field.
One deviation: when the resolved payload is JSON `null`, the source's
read of `response.token` throws a `TypeError` before anything is
written; the model returns the store unchanged there, which agrees
with the source's (absent) store effect, but does not track that
thrown error. -/
def authTokenStore (w : Bool) (response : Json) (s : Store) : Store :=
  match response.lookupKey "token" with
  | some tv =>
    if jsTruthy tv then
      let s1 := setToken w (jsToString tv) s
      if w then
        { s1 with
          user := some
            (match response.lookupKey "user" with
              | some uj => jsonStringify uj
              | none => "undefined") }
      else s1
    else s
  | none => s

/-- Source method `authApi.login`: POST `/auth/login` with `\x7bemail, password\x7d`; on a
resolved response run the token-store side effect, then return the
response; a thrown error propagates unchanged. -/
def authLogin (e : Env) (email password : String) (s : Store)
    (fetched : Option HttpResponse) : Outcome × Store :=
  let r := apiRequest e s "/auth/login"
    { method := "POST",
      body := some (.obj [("email", .str email), ("password", .str password)]) }
    fetched
  match r.outcome with
  | .ok response => (.ok response, authTokenStore e.hasWindow response r.store)
  | o => (o, r.store)

/-- Source method `authApi.register`: POST `/auth/register`, same side effect as
`authApi.login`. -/
def authRegister (e : Env) (email password : String) (s : Store)
    (fetched : Option HttpResponse) : Outcome × Store :=
  let r := apiRequest e s "/auth/register"
    { method := "POST",
      body := some (.obj [("email", .str email), ("password", .str password)]) }
    fetched
  match r.outcome with
  | .ok response => (.ok response, authTokenStore e.hasWindow response r.store)
  | o => (o, r.store)

/-- Source method `authApi.logout`: POST `/auth/logout` inside `try`, with
`clearToken()` in the `finally` block — the clear runs on the resolve
path and on every throw path before the result or the error leaves
`logout`. -/
def authLogout (e : Env) (s : Store) (fetched : Option HttpResponse) :
    Outcome × Store :=
  let r := apiRequest e s "/auth/logout"
    { method := "POST", body := some (.obj []) } fetched
  (r.outcome, clearToken e.hasWindow r.store)

/-! ### Login flow controller (`src/app/page.tsx`, login page)

The allow-list is four JavaScript regular expressions, each tested
with `.test(uri)`.  They are anchored (`^...$`), `.` does not match a
line terminator, and `\w` is `[A-Za-z0-9_]`. -/

/-- JS `.` (no `s` flag): any character except a line terminator. -/
def isRegexDot (c : Char) : Bool :=
  !(c = '\n' || c = '\r' || c.toNat = 0x2028 || c.toNat = 0x2029)

/-- JS `[-\w/]`: word characters, slash and hyphen. -/
def isRelPathChar (c : Char) : Bool :=
  c.isAlpha || c.isDigit || c = '_' || c = '/' || c = '-'

/-- Strip an expected leading character sequence. -/
def dropLit : List Char → List Char → Option (List Char)
  | [], rest => some rest
  | p :: ps, c :: rest => if c = p then dropLit ps rest else none
  | _ :: _, [] => none

/-- Matching `^<base>(\/.*)?$` against a whole string: the base alone, or the
base, a slash and any characters `.` can match. -/
def prodWebMatch (base : String) (s : String) : Bool :=
  match dropLit base.data s.data with
  | some [] => true
  | some ('/' :: tail) => tail.all isRegexDot
  | some _ => false
  | none => false

/-- Matching `^\/[-\w/]*$`: a same-origin relative path. -/
def relPathMatch (s : String) : Bool :=
  match s.data with
  | '/' :: tail => tail.all isRelPathChar
  | _ => false

/-- Source function `isValidRedirectUri`: any of the four `ALLOWED_REDIRECT_PATTERNS`
— the desktop deep link `^hotstart:\/\/auth\/callback$`, the
production origin `^https:\/\/hotstart\.dev(\/.*)?$`, the `www`
variant, or a relative path `^\/[-\w/]*$`. -/
def isValidRedirectUri (uri : String) : Bool :=
  uri = "hotstart://auth/callback" ||
  prodWebMatch "https://hotstart.dev" uri ||
  prodWebMatch "https://www.hotstart.dev" uri ||
  relPathMatch uri

/-- The mount-time effect of the login form: an invalid
`redirect_uri` sets the `redirectError` state, which never changes
afterwards (the effect depends only on `redirectUri`, itself fixed by
the query string). -/
def redirectErrorFor (redirectUri : String) : String :=
  if isValidRedirectUri redirectUri then ""
  else "Invalid redirect destination"

/-- What a submission of the login form does first. -/
inductive SubmitAction where
  | blockedInvalidRedirect : SubmitAction
  | blockedFormValidation : String → SubmitAction
  | proceedsToBackend : SubmitAction
deriving DecidableEq, Repr

/-- The login form's local validation (`validateForm`). -/
def loginValidateForm (email password : String) : Option String :=
  if email.trim = "" then some "Email is required"
  else if password = "" then some "Password is required"
  else none

/-- Source function `handleSubmit`, up to the first network contact: a non-empty
`redirectError` blocks with the terminal message and returns before
any request or redirect; then local form validation may block; only
then does the flow reach the backend (and only that branch can ever
assign `window.location.href`). -/
def handleSubmitGate (redirectUri email password : String) :
    SubmitAction :=
  if redirectErrorFor redirectUri ≠ "" then .blockedInvalidRedirect
  else
    match loginValidateForm email password with
    | some m => .blockedFormValidation m
    | none => .proceedsToBackend

/-! ### Claims about the login flow controller and base URL -/

/-- C5: the redirect-destination validation accepts the desktop deep
link `hotstart://auth/callback`, the production subpath
`https://hotstart.dev/dashboard` and the relative path `/dashboard`,
rejects `https://evil.example.com`, and a rejected destination makes
every submission stop with the terminal invalid-redirect error before
any request or redirect happens, whatever credentials are entered. -/
theorem redirect_allowlist_accepts_and_blocks :
    isValidRedirectUri "hotstart://auth/callback" = true ∧
    isValidRedirectUri "https://hotstart.dev/dashboard" = true ∧
    isValidRedirectUri "/dashboard" = true ∧
    isValidRedirectUri "https://evil.example.com" = false ∧
    ∀ email password : String,
      handleSubmitGate "https://evil.example.com" email password =
        .blockedInvalidRedirect := by
  refine ⟨by decide, by decide, by decide, by decide, ?_⟩
  intro email password
  rfl

/-- C4: `logout` leaves the caller unauthenticated in every outcome —
transport failure, thrown `ApiError`, parse error or success — and in
a browser context both session slots are empty afterwards. -/
theorem logout_always_clears_session (e : Env) (s : Store)
    (fetched : Option HttpResponse) :
    isAuthenticated e.hasWindow (authLogout e s fetched).2 = false ∧
    (e.hasWindow = true →
      (authLogout e s fetched).2.token = none ∧
      (authLogout e s fetched).2.user = none) := by
  cases hw : e.hasWindow <;>
    simp [authLogout, clearToken, isAuthenticated, getToken, hw]

/-- C4 witness: a concrete browser-context logout over a failing
transport ends unauthenticated with both slots empty. -/
theorem logout_always_clears_session_witness :
    isAuthenticated true
      (authLogout { envApiUrl := none, hasWindow := true, hostname := "localhost" }
        { token := some "tok", user := some "u" } none).2 = false ∧
    (authLogout { envApiUrl := none, hasWindow := true, hostname := "localhost" }
        { token := some "tok", user := some "u" } none).2.token = none ∧
    (authLogout { envApiUrl := none, hasWindow := true, hostname := "localhost" }
        { token := some "tok", user := some "u" } none).2.user = none := by
  have h := logout_always_clears_session
    { envApiUrl := none, hasWindow := true, hostname := "localhost" }
    { token := some "tok", user := some "u" } none
  exact ⟨h.1, (h.2 rfl).1, (h.2 rfl).2⟩

/-- C8 counterexample: the claim reads the environment override
whenever it is set, but an override set to the empty string is falsy
and the code falls through — here to the development host, not to the
override value. -/
theorem base_url_empty_override_counterexample :
    getGatewayUrl { envApiUrl := some "", hasWindow := false, hostname := "host" }
      ≠ "" ∧
    getGatewayUrl { envApiUrl := some "", hasWindow := false, hostname := "host" }
      = DEV_GATEWAY_URL := by
  constructor
  · decide
  · rfl

/-- C8 (amended): the base URL is resolved with precedence — a
non-empty environment override wins; otherwise the production gateway
host in a browser whose hostname is not `localhost`; otherwise the
development host — and every request a run issues uses that one
resolved value as its URL base. -/
theorem base_url_precedence_and_stability (e : Env) :
    (∀ u : String, e.envApiUrl = some u → u ≠ "" → getGatewayUrl e = u) ∧
    ((e.envApiUrl = none ∨ e.envApiUrl = some "") → e.hasWindow = true →
      e.hostname ≠ "localhost" → getGatewayUrl e = GATEWAY_URL) ∧
    ((e.envApiUrl = none ∨ e.envApiUrl = some "") →
      (e.hasWindow = false ∨ e.hostname = "localhost") →
      getGatewayUrl e = DEV_GATEWAY_URL) ∧
    ∀ (s : Store) (endpoint : String) (opts : RequestOptions)
      (fetched : Option HttpResponse),
      (apiRequest e s endpoint opts fetched).sent.url =
        getGatewayUrl e ++ endpoint := by
  refine ⟨?_, ?_, ?_, ?_⟩
  · intro u hu hne
    simp [getGatewayUrl, hu, hne]
  · intro hset hw hh
    rcases hset with h | h <;> simp [getGatewayUrl, h, hw, hh]
  · intro hset hcase
    rcases hset with h | h <;> rcases hcase with h2 | h2 <;>
      simp [getGatewayUrl, h, h2]
  · intro s endpoint opts fetched
    cases fetched with
    | none => rfl
    | some resp =>
      simp only [apiRequest]
      cases hb : parsedBody resp.bodyText with
      | none => rfl
      | some data =>
        by_cases hok : respOk resp.status = true <;> cases data <;>
          simp [hb, hok]

/-- C8 witness: with an unset override, in a browser on the
production domain, a request's URL starts at the production
gateway. -/
theorem base_url_precedence_and_stability_witness :
    getGatewayUrl { envApiUrl := none, hasWindow := true, hostname := "hotstart.dev" }
      = GATEWAY_URL ∧
    (apiRequest { envApiUrl := none, hasWindow := true, hostname := "hotstart.dev" }
        { token := none, user := none } "/auth/me" {} none).sent.url =
      getGatewayUrl { envApiUrl := none, hasWindow := true, hostname := "hotstart.dev" }
        ++ "/auth/me" := by
  have h := base_url_precedence_and_stability
    { envApiUrl := none, hasWindow := true, hostname := "hotstart.dev" }
  exact ⟨h.2.1 (Or.inl rfl) rfl (by decide), h.2.2.2 _ _ _ _⟩

/-! ### Header lemmas and the Authorization claims -/

theorem headersGet_setHeader_self (hs : List (String × String))
    (k v : String) : headersGet (setHeader hs k v) k = some v := by
  induction hs with
  | nil => simp [setHeader, headersGet]
  | cons kv rest ih =>
    by_cases h : kv.1 = k
    · cases kv
      simp_all [setHeader, headersGet]
    · cases kv
      simp_all [setHeader, headersGet, List.find?]

theorem headersGet_setHeader_other (hs : List (String × String))
    (k v k2 : String) (hne : k2 ≠ k) :
    headersGet (setHeader hs k v) k2 = headersGet hs k2 := by
  induction hs with
  | nil => simp [setHeader, headersGet, List.find?, Ne.symm hne]
  | cons kv rest ih =>
    cases kv with
    | mk k1 v1 =>
      by_cases h : k1 = k
      · subst h
        simp [setHeader, headersGet, List.find?, Ne.symm hne]
      · by_cases h2 : k1 = k2 <;>
          simp_all [setHeader, headersGet, List.find?]

theorem headersGet_objSpread_none (extra : List (String × String)) :
    ∀ base : List (String × String), ∀ k : String,
    headersGet base k = none → (∀ kv ∈ extra, kv.1 ≠ k) →
    headersGet (objSpread base extra) k = none := by
  induction extra with
  | nil =>
    intro base k hbase _
    simpa [objSpread] using hbase
  | cons kv rest ih =>
    intro base k hbase hmem
    have hkv : kv.1 ≠ k := hmem kv (by simp)
    have hstep : headersGet (setHeader base kv.1 kv.2) k = none := by
      rw [headersGet_setHeader_other base kv.1 kv.2 k (Ne.symm hkv)]
      exact hbase
    have : objSpread base (kv :: rest) = objSpread (setHeader base kv.1 kv.2) rest := by
      simp [objSpread]
    rw [this]
    exact ih _ k hstep (fun x hx => hmem x (by simp [hx]))

/-- The headers of the fetch a dispatcher call issues are exactly
`buildHeaders`, whatever the exchange does afterwards. -/
theorem apiRequest_sent_headers (e : Env) (s : Store) (endpoint : String)
    (opts : RequestOptions) (fetched : Option HttpResponse) :
    (apiRequest e s endpoint opts fetched).sent.headers =
      buildHeaders e.hasWindow s opts := by
  cases fetched with
  | none => rfl
  | some resp =>
    simp only [apiRequest]
    cases hb : parsedBody resp.bodyText with
    | none => rfl
    | some data =>
      by_cases hok : respOk resp.status = true <;> cases data <;>
        simp [hb, hok]

/-- C2 counterexample: with no token stored and `skipAuth` unset, the
claim forbids any `Authorization` entry, but a caller-supplied
`Authorization` header is spread into the outgoing headers
unchanged. -/
theorem auth_header_caller_injection_counterexample :
    getToken true { token := none, user := none } = none ∧
    (RequestOptions.skipAuth
      { headers := [("Authorization", "X")] }) = false ∧
    headersGet
      (apiRequest { envApiUrl := none, hasWindow := true, hostname := "localhost" }
        { token := none, user := none } "/auth/me"
        { headers := [("Authorization", "X")] } none).sent.headers
      "Authorization" = some "X" := by
  exact ⟨rfl, rfl, rfl⟩

/-- C2 (amended): without `skipAuth`, a stored truthy (non-empty)
token always makes the outgoing `Authorization` header exactly
`Bearer <token>` (overriding even a caller-supplied value); when no
token is stored, or the stored token is the empty string (falsy, so
the source's `if (token)` skips it), the dispatcher adds no
`Authorization` header, so none is sent unless the caller supplied
one themselves. -/
theorem auth_header_attachment (e : Env) (s : Store) (endpoint : String)
    (opts : RequestOptions) (fetched : Option HttpResponse)
    (hskip : opts.skipAuth = false) :
    (∀ t : String, getToken e.hasWindow s = some t → t ≠ "" →
      headersGet (apiRequest e s endpoint opts fetched).sent.headers
        "Authorization" = some ("Bearer " ++ t)) ∧
    (getToken e.hasWindow s = none ∨ getToken e.hasWindow s = some "" →
      (∀ kv ∈ opts.headers, kv.1 ≠ "Authorization") →
      headersGet (apiRequest e s endpoint opts fetched).sent.headers
        "Authorization" = none) := by
  rw [apiRequest_sent_headers]
  constructor
  · intro t ht hne
    simp only [buildHeaders, hskip, ht, Bool.not_false, if_pos, if_neg,
      hne, ne_eq, not_false_eq_true, if_true]
    exact headersGet_setHeader_self _ _ _
  · intro ht hmem
    have hb : headersGet
        (objSpread [("Content-Type", "application/json")] opts.headers)
        "Authorization" = none := by
      refine headersGet_objSpread_none opts.headers _ _ ?_ hmem
      simp [headersGet, List.find?]
    rcases ht with h | h <;>
      simp only [buildHeaders, hskip, h, Bool.not_false, if_pos, ne_eq,
        not_true_eq_false, if_false, ite_self] <;>
      simpa using hb

/-- C2 witness: a browser-context request with token `tok123` carries
`Authorization: Bearer tok123`; the same request shape with an empty
store and no caller headers carries no `Authorization` entry. -/
theorem auth_header_attachment_witness :
    headersGet
      (apiRequest { envApiUrl := none, hasWindow := true, hostname := "localhost" }
        { token := some "tok123", user := none } "/billing/plans" {} none).sent.headers
      "Authorization" = some ("Bearer " ++ "tok123") ∧
    headersGet
      (apiRequest { envApiUrl := none, hasWindow := true, hostname := "localhost" }
        { token := none, user := none } "/billing/plans" {} none).sent.headers
      "Authorization" = none := by
  constructor
  · exact (auth_header_attachment
      { envApiUrl := none, hasWindow := true, hostname := "localhost" }
      { token := some "tok123", user := none } "/billing/plans" {} none rfl).1
      "tok123" rfl (by decide)
  · exact (auth_header_attachment
      { envApiUrl := none, hasWindow := true, hostname := "localhost" }
      { token := none, user := none } "/billing/plans" {} none rfl).2
      (Or.inl rfl) (by simp)

/-! ### Claims about the dispatcher's 401, error and parse behavior -/

/-- C1 counterexample: a 401 response whose body is not valid JSON
makes `JSON.parse` throw *before* the 401 handler runs, so the call
raises with both session slots still occupied — the claim promises
they are absent after any 401, whatever the outcome. -/
theorem session_clear_on_401_counterexample :
    (apiRequest { envApiUrl := none, hasWindow := true, hostname := "localhost" }
        { token := some "tok", user := some "u" } "/auth/me" {}
        (some { status := 401, statusText := "Unauthorized",
                bodyText := "Unauthorized" })).store.token = some "tok" ∧
    (apiRequest { envApiUrl := none, hasWindow := true, hostname := "localhost" }
        { token := some "tok", user := some "u" } "/auth/me" {}
        (some { status := 401, statusText := "Unauthorized",
                bodyText := "Unauthorized" })).store.user = some "u" ∧
    (401 : Nat) = 401 := by
  exact ⟨rfl, rfl, rfl⟩

/-- C1 (amended): for every dispatcher request, in a browser context,
that receives a 401 response whose raw body is empty or parses as
JSON, both session slots are absent once the call completes — whether
it then raises the typed error or anything else, and regardless of
the endpoint, options or prior store contents.  (When the body fails
to parse, the `SyntaxError` pre-empts the 401 handler and the store
is untouched, as the counterexample shows.) -/
theorem session_cleared_on_401 (e : Env) (s : Store) (endpoint : String)
    (opts : RequestOptions) (resp : HttpResponse)
    (hw : e.hasWindow = true) (h401 : resp.status = 401)
    (hparse : (parsedBody resp.bodyText).isSome = true) :
    (apiRequest e s endpoint opts (some resp)).store.token = none ∧
    (apiRequest e s endpoint opts (some resp)).store.user = none := by
  obtain ⟨j, hj⟩ := Option.isSome_iff_exists.mp hparse
  have hok : respOk resp.status = false := by
    simp [respOk, h401]
  simp only [apiRequest, hj, h401, hok]
  cases j <;> simp [clearToken, hw, respOk]

/-- C1 witness: a concrete 401 with an empty body, issued with a full
session, leaves both slots empty. -/
theorem session_cleared_on_401_witness :
    (parsedBody "").isSome = true ∧
    (apiRequest { envApiUrl := none, hasWindow := true, hostname := "localhost" }
        { token := some "tok", user := some "u" } "/user/profile" {}
        (some { status := 401, statusText := "Unauthorized",
                bodyText := "" })).store.token = none ∧
    (apiRequest { envApiUrl := none, hasWindow := true, hostname := "localhost" }
        { token := some "tok", user := some "u" } "/user/profile" {}
        (some { status := 401, statusText := "Unauthorized",
                bodyText := "" })).store.user = none := by
  refine ⟨rfl, ?_⟩
  exact session_cleared_on_401
    { envApiUrl := none, hasWindow := true, hostname := "localhost" }
    { token := some "tok", user := some "u" } "/user/profile" {}
    { status := 401, statusText := "Unauthorized", bodyText := "" }
    rfl rfl rfl

/-- C6 counterexample: four concrete gaps between the claim and the
code.  A non-2xx response with a non-JSON body raises `SyntaxError`,
not the typed error; a non-2xx response whose body is JSON `null`
raises a `TypeError` from the error constructor itself; the generic
display message is prefixed with `API Error:` rather than being
`<status> <statusText>`; and a *present* but empty `error` field is
falsy, so the display message falls back to the generic string
instead of equalling the field. -/
theorem typed_error_counterexample :
    (apiRequest { envApiUrl := none, hasWindow := true, hostname := "localhost" }
        { token := none, user := none } "/auth/me" {}
        (some { status := 500, statusText := "Internal Server Error",
                bodyText := "oops" })).outcome = .jsErr "SyntaxError" ∧
    (apiRequest { envApiUrl := none, hasWindow := true, hostname := "localhost" }
        { token := none, user := none } "/auth/me" {}
        (some { status := 500, statusText := "Internal Server Error",
                bodyText := "null" })).outcome = .jsErr "TypeError" ∧
    apiErrorMessage 404 "Not Found" (.obj []) = "API Error: 404 Not Found" ∧
    "API Error: 404 Not Found" ≠ "404 Not Found" ∧
    (Json.obj [("error", .str "")]).lookupKey "error" = some (.str "") ∧
    apiErrorMessage 500 "X" (.obj [("error", .str "")]) = "API Error: 500 X" := by
  exact ⟨rfl, rfl, rfl, by decide, rfl, rfl⟩

/-- C6 (amended): for every non-2xx response whose body is empty or
parses as JSON other than `null`, the dispatcher fails with the typed
error carrying exactly the response status, status text and parsed
payload; when the payload's `error` field is a non-empty string the
display message equals it, and when the field is absent or the empty
string the display message is the generic
`API Error: <status> <statusText>`. -/
theorem typed_error_on_non_2xx (e : Env) (s : Store) (endpoint : String)
    (opts : RequestOptions) (resp : HttpResponse) (j : Json)
    (hok : respOk resp.status = false)
    (hparse : parsedBody resp.bodyText = some j) (hnn : j ≠ .null) :
    (apiRequest e s endpoint opts (some resp)).outcome =
      .apiErr resp.status resp.statusText j ∧
    (∀ t : String, j.lookupKey "error" = some (.str t) → t ≠ "" →
      apiErrorMessage resp.status resp.statusText j = t) ∧
    (j.lookupKey "error" = none ∨ j.lookupKey "error" = some (.str "") →
      apiErrorMessage resp.status resp.statusText j =
        "API Error: " ++ toString resp.status ++ " " ++ resp.statusText) := by
  refine ⟨?_, ?_, ?_⟩
  · simp only [apiRequest, hparse, hok]
    cases j <;> simp_all
  · intro t hfield hne
    simp [apiErrorMessage, hfield, jsTruthy, hne, jsToString]
  · intro hfield
    rcases hfield with h | h <;> simp [apiErrorMessage, h, jsTruthy]

/-- C6 witness: a concrete 404 whose payload carries
`error: "User not found"` raises the typed error with that payload
and that display message; a concrete 500 with an empty body raises
the typed error with the empty payload and the generic message. -/
theorem typed_error_on_non_2xx_witness :
    (apiRequest { envApiUrl := none, hasWindow := true, hostname := "localhost" }
        { token := none, user := none } "/auth/me" {}
        (some { status := 404, statusText := "Not Found",
                bodyText := "\x7b\"error\":\"User not found\"\x7d" })).outcome =
      .apiErr 404 "Not Found" (.obj [("error", .str "User not found")]) ∧
    apiErrorMessage 404 "Not Found" (.obj [("error", .str "User not found")]) =
      "User not found" ∧
    (apiRequest { envApiUrl := none, hasWindow := true, hostname := "localhost" }
        { token := none, user := none } "/billing/plans" {}
        (some { status := 500, statusText := "Internal Server Error",
                bodyText := "" })).outcome =
      .apiErr 500 "Internal Server Error" (.obj []) ∧
    apiErrorMessage 500 "Internal Server Error" (.obj []) =
      "API Error: " ++ toString 500 ++ " " ++ "Internal Server Error" := by
  have h1 := typed_error_on_non_2xx
    { envApiUrl := none, hasWindow := true, hostname := "localhost" }
    { token := none, user := none } "/auth/me" {}
    { status := 404, statusText := "Not Found",
      bodyText := "\x7b\"error\":\"User not found\"\x7d" }
    (.obj [("error", .str "User not found")]) (by decide) rfl (by intro h; cases h)
  have h2 := typed_error_on_non_2xx
    { envApiUrl := none, hasWindow := true, hostname := "localhost" }
    { token := none, user := none } "/billing/plans" {}
    { status := 500, statusText := "Internal Server Error", bodyText := "" }
    (.obj []) (by decide) rfl (by intro h; cases h)
  exact ⟨h1.1, h1.2.1 "User not found" rfl (by decide), h2.1, h2.2.2 (Or.inl rfl)⟩

/-- C7: an empty raw body is treated as the empty-object payload —
returned as a successful result on a 2xx status and carried as the
typed error's payload otherwise — and a non-empty body goes through
`JSON.parse` for every status: the parsed payload (or the
`SyntaxError`) surfaces whether the status is 2xx or not. -/
theorem empty_body_and_parse_regardless_of_status (e : Env) (s : Store)
    (endpoint : String) (opts : RequestOptions) (resp : HttpResponse) :
    (resp.bodyText = "" → respOk resp.status = true →
      (apiRequest e s endpoint opts (some resp)).outcome = .ok (.obj [])) ∧
    (resp.bodyText = "" → respOk resp.status = false →
      (apiRequest e s endpoint opts (some resp)).outcome =
        .apiErr resp.status resp.statusText (.obj [])) ∧
    (resp.bodyText ≠ "" → jsonParse resp.bodyText = none →
      (apiRequest e s endpoint opts (some resp)).outcome = .jsErr "SyntaxError") ∧
    (∀ j : Json, resp.bodyText ≠ "" → jsonParse resp.bodyText = some j →
      respOk resp.status = true →
      (apiRequest e s endpoint opts (some resp)).outcome = .ok j) ∧
    (∀ j : Json, resp.bodyText ≠ "" → jsonParse resp.bodyText = some j →
      respOk resp.status = false → j ≠ .null →
      (apiRequest e s endpoint opts (some resp)).outcome =
        .apiErr resp.status resp.statusText j) := by
  refine ⟨?_, ?_, ?_, ?_, ?_⟩
  · intro hb hok
    simp [apiRequest, parsedBody, hb, hok]
  · intro hb hok
    simp [apiRequest, parsedBody, hb, hok]
  · intro hb hp
    simp [apiRequest, parsedBody, hb, hp]
  · intro j hb hp hok
    simp [apiRequest, parsedBody, hb, hp, hok]
  · intro j hb hp hok hnn
    simp only [apiRequest, parsedBody, if_neg hb, hp, hok]
    cases j <;> simp_all

/-- C7 witness: a 200 with an empty body resolves to the empty
object; a 503 with a non-JSON body surfaces the parse failure even
though the status is already an error. -/
theorem empty_body_and_parse_witness :
    (apiRequest { envApiUrl := none, hasWindow := true, hostname := "localhost" }
        { token := none, user := none } "/billing/cancel" {}
        (some { status := 200, statusText := "OK", bodyText := "" })).outcome =
      .ok (.obj []) ∧
    (apiRequest { envApiUrl := none, hasWindow := true, hostname := "localhost" }
        { token := none, user := none } "/ui/config" {}
        (some { status := 503, statusText := "Service Unavailable",
                bodyText := "busy" })).outcome = .jsErr "SyntaxError" := by
  constructor
  · exact (empty_body_and_parse_regardless_of_status
      { envApiUrl := none, hasWindow := true, hostname := "localhost" }
      { token := none, user := none } "/billing/cancel" {}
      { status := 200, statusText := "OK", bodyText := "" }).1 rfl (by decide)
  · exact (empty_body_and_parse_regardless_of_status
      { envApiUrl := none, hasWindow := true, hostname := "localhost" }
      { token := none, user := none } "/ui/config" {}
      { status := 503, statusText := "Service Unavailable",
        bodyText := "busy" }).2.2.1 (by decide) rfl

/-! ### Parse / stringify round trip for the stored user record

`authApi.login`/`register` store `JSON.stringify(response.user)` and
`getStoredUser` reads it back through `JSON.parse`; the round-trip
lemmas below show the stored record survives unchanged, for arbitrary
`id` and `email` strings (arbitrary characters, including the ones
`JSON.stringify` must escape). -/

theorem hexVal_hexDig : ∀ n : Nat, n < 16 → hexVal (hexDig n) = some n := by
  decide

theorem parseStrBody_escChar (c : Char) (t : List Char) :
    parseStrBody (escChar c ++ t) = mapCons c (parseStrBody t) := by
  unfold escChar
  split_ifs with h1 h2 h3 h4 h5 h6 h7 h8
  · subst h1; rfl
  · subst h2; rfl
  · subst h3; rfl
  · subst h4; rfl
  · subst h5; rfl
  · subst h6; rfl
  · subst h7; rfl
  · -- the `\u00XX` escape for the remaining control characters
    have hlt : c.toNat < 32 := h8
    have hdiv : c.toNat / 16 < 16 := by omega
    have hmod : c.toNat % 16 < 16 := Nat.mod_lt _ (by omega)
    have hv : hexVal '0' = some 0 := by decide
    have h16a := hexVal_hexDig _ hdiv
    have h16b := hexVal_hexDig _ hmod
    change strScan (.hex2 0 0)
      (hexDig (c.toNat / 16) :: hexDig (c.toNat % 16) :: t) =
      mapCons c (parseStrBody t)
    simp only [strScan, h16a, h16b]
    norm_num
    have hn : c.toNat / 16 * 16 + c.toNat % 16 = c.toNat := by omega
    simp only [hn]
    have hvalid : c.toNat < 0xd800 ∨ (0xe000 ≤ c.toNat ∧ c.toNat < 0x110000) := by
      left; omega
    rw [if_pos hvalid, Char.ofNat_toNat]
    rfl
  · -- an unescaped character
    simp only [List.cons_append, List.nil_append, parseStrBody, strScan]
    rw [if_neg h1, if_neg h2, if_neg h8]
    rfl

theorem parseStrBody_escList (l : List Char) (rest : List Char) :
    parseStrBody (escList l ++ '"' :: rest) = some (l, rest) := by
  induction l with
  | nil => rfl
  | cons c t ih =>
    rw [escList, List.append_assoc, parseStrBody_escChar, ih]
    rfl

theorem skipWs_cons (c : Char) (rest : List Char)
    (h : isJsonWs c = false) : skipWs (c :: rest) = c :: rest := by
  simp [skipWs, h]

theorem parseCore_str_val (f : Nat) (l rest : List Char) :
    parseCore (f + 1) .pval ('"' :: (escList l ++ '"' :: rest)) =
      some (.str (String.mk l), rest) := by
  have hws : skipWs ('"' :: (escList l ++ '"' :: rest)) =
      '"' :: (escList l ++ '"' :: rest) := skipWs_cons _ _ (by decide)
  simp [parseCore, hws, parseStrBody_escList]

theorem skipWs_quote (l : List Char) : skipWs ('"' :: l) = '"' :: l :=
  skipWs_cons _ _ (by decide)

theorem skipWs_colon (l : List Char) : skipWs (':' :: l) = ':' :: l :=
  skipWs_cons _ _ (by decide)

theorem skipWs_comma (l : List Char) : skipWs (',' :: l) = ',' :: l :=
  skipWs_cons _ _ (by decide)

theorem skipWs_rbrace (l : List Char) : skipWs ('}' :: l) = '}' :: l :=
  skipWs_cons _ _ (by decide)

/-- Parsing the final `"<key>":"<value>"\x7d` member of an object. -/
theorem parseCore_member_last (f : Nat) (kl vl rest : List Char) :
    parseCore (f + 2) .pmembers
      ('"' :: (escList kl ++ '"' :: ':' :: '"' ::
        (escList vl ++ '"' :: '}' :: rest))) =
      some (.obj [(String.mk kl, .str (String.mk vl))], rest) := by
  have hK := parseStrBody_escList kl
    (':' :: '"' :: (escList vl ++ '"' :: '}' :: rest))
  have hV := parseCore_str_val f vl ('}' :: rest)
  show parseCore ((f + 1) + 1) .pmembers _ = _
  generalize hg : f + 1 = g
  rw [hg] at hV
  simp only [parseCore, skipWs_quote, skipWs_colon, skipWs_rbrace, hK, hV]

/-- Parsing a non-final `"<key>":"<value>",` member of an object. -/
theorem parseCore_member_cons (f : Nat) (kl vl tail : List Char) :
    parseCore (f + 2) .pmembers
      ('"' :: (escList kl ++ '"' :: ':' :: '"' ::
        (escList vl ++ '"' :: ',' :: tail))) =
      (match parseCore (f + 1) .pmembers tail with
        | some (.obj fs, r6) =>
          some (.obj ((String.mk kl, .str (String.mk vl)) :: fs), r6)
        | _ => none) := by
  have hK := parseStrBody_escList kl
    (':' :: '"' :: (escList vl ++ '"' :: ',' :: tail))
  have hV := parseCore_str_val f vl (',' :: tail)
  show parseCore ((f + 1) + 1) .pmembers _ =
    (match parseCore (f + 1) .pmembers tail with
      | some (.obj fs, r6) =>
        some (.obj ((String.mk kl, .str (String.mk vl)) :: fs), r6)
      | _ => none)
  generalize hg : f + 1 = g
  rw [hg] at hV
  simp only [parseCore, skipWs_quote, skipWs_colon, skipWs_comma, hK, hV]

/-- Parsing the serialized two-member user object
`\x7b"id":"<uid>","email":"<uem>"\x7d`. -/
theorem parseCore_user_obj (f : Nat) (uid uem : List Char) :
    parseCore (f + 4) .pval
      ('{' :: '"' :: 'i' :: 'd' :: '"' :: ':' :: '"' ::
        (escList uid ++ '"' :: ',' :: '"' :: 'e' :: 'm' :: 'a' :: 'i' ::
          'l' :: '"' :: ':' :: '"' ::
            (escList uem ++ '"' :: '}' :: ([] : List Char)))) =
      some (.obj [("id", .str (String.mk uid)),
                  ("email", .str (String.mk uem))], []) := by
  change parseCore ((f + 1) + 2) .pmembers
    ('"' :: (escList ['i', 'd'] ++ '"' :: ':' :: '"' ::
      (escList uid ++ '"' :: ',' ::
        ('"' :: (escList ['e', 'm', 'a', 'i', 'l'] ++ '"' :: ':' :: '"' ::
          (escList uem ++ '"' :: '}' :: ([] : List Char))))))) = _
  rw [parseCore_member_cons (f + 1) ['i', 'd'] uid
    ('"' :: (escList ['e', 'm', 'a', 'i', 'l'] ++ '"' :: ':' :: '"' ::
      (escList uem ++ '"' :: '}' :: ([] : List Char))))]
  rw [show (f + 1) + 1 = f + 2 from rfl]
  rw [parseCore_member_last f ['e', 'm', 'a', 'i', 'l'] uem []]

/-- The characters `JSON.stringify` produces for the user record. -/
theorem stringify_user_data (uid uem : String) :
    (jsonStringify (userJson uid uem)).data =
      '{' :: '"' :: 'i' :: 'd' :: '"' :: ':' :: '"' ::
        (escList uid.data ++ '"' :: ',' :: '"' :: 'e' :: 'm' :: 'a' :: 'i' ::
          'l' :: '"' :: ':' :: '"' ::
            (escList uem.data ++ '"' :: '}' :: ([] : List Char))) := by
  show stringifyChars (userJson uid uem) = _
  simp only [userJson, stringifyChars, stringifyFields, quoteEscL]
  rw [show escList ['i', 'd'] = ['i', 'd'] from rfl,
    show escList ['e', 'm', 'a', 'i', 'l'] = ['e', 'm', 'a', 'i', 'l'] from rfl]
  simp [List.append_assoc]

/-- Parsing the serialized user record returns it unchanged, for
arbitrary `id` and `email` contents. -/
theorem jsonParse_stringify_user (uid uem : String) :
    jsonParse (jsonStringify (userJson uid uem)) = some (userJson uid uem) := by
  have hdata := stringify_user_data uid uem
  have hlen : (jsonStringify (userJson uid uem)).length =
      (escList uid.data).length + (escList uem.data).length + 20 := by
    show (jsonStringify (userJson uid uem)).data.length = _
    rw [hdata]
    simp [List.length_append]
    omega
  have hfuel : (jsonStringify (userJson uid uem)).length + 1 =
      ((escList uid.data).length + (escList uem.data).length + 17) + 4 := by
    omega
  show (match parseCore ((jsonStringify (userJson uid uem)).length + 1) .pval
      (jsonStringify (userJson uid uem)).data with
    | some (j, r) => if skipWs r = [] then some j else none
    | none => none) = some (userJson uid uem)
  rw [hfuel, hdata,
    parseCore_user_obj ((escList uid.data).length + (escList uem.data).length + 17)
      uid.data uem.data]
  rfl

/-- Structure eta for strings: rebuilding a string from its character
list gives it back. -/
theorem mk_data (s : String) : String.mk s.data = s := rfl

/-- A serialized member list of string-valued fields is at least two
characters per member long. -/
theorem stringifyFields_length_ge :
    ∀ fs : List (String × Json), allStrFields fs = true → fs ≠ [] →
      2 * fs.length ≤ (stringifyFields fs).length := by
  intro fs
  induction fs with
  | nil => intro _ hne; exact absurd rfl hne
  | cons kv fs' ih =>
    intro hstr _
    obtain ⟨k, v⟩ := kv
    cases v with
    | str sv =>
      cases fs' with
      | nil =>
        simp [stringifyFields, stringifyChars, quoteEscL, List.length_append]
        omega
      | cons kv2 fs'' =>
        have hstr' : allStrFields (kv2 :: fs'') = true := by
          simpa [allStrFields] using hstr
        have hih := ih hstr' (by simp)
        simp only [stringifyFields, stringifyChars, quoteEscL,
          List.length_append, List.length_cons] at hih ⊢
        omega
    | null => simp [allStrFields] at hstr
    | bool b => simp [allStrFields] at hstr
    | num n => simp [allStrFields] at hstr
    | arr xs => simp [allStrFields] at hstr
    | obj fs2 => simp [allStrFields] at hstr

/-- Entering a non-empty object: after the opening brace, parsing
continues with the members. -/
theorem parseCore_obj_entry (f : Nat) (t : List Char) :
    parseCore (f + 1) .pval ('{' :: '"' :: t) =
      parseCore f .pmembers ('"' :: t) := rfl

/-- Parsing a serialized member list of string-valued fields (with
the closing brace) returns those fields with keys, values and order
intact. -/
theorem parseCore_members_strFields :
    ∀ (fs : List (String × Json)) (f : Nat) (rest : List Char),
      allStrFields fs = true → fs ≠ [] → 2 * fs.length ≤ f →
      parseCore f .pmembers (stringifyFields fs ++ '}' :: rest) =
        some (.obj fs, rest) := by
  intro fs
  induction fs with
  | nil => intro f rest _ hne _; exact absurd rfl hne
  | cons kv fs' ih =>
    intro f rest hstr hne hf
    obtain ⟨k, v⟩ := kv
    cases v with
    | str sv =>
      have hf' : 2 * (fs'.length + 1) ≤ f := by simpa using hf
      obtain ⟨f2, rfl⟩ : ∃ f2, f = f2 + 2 := ⟨f - 2, by omega⟩
      cases fs' with
      | nil =>
        have h := parseCore_member_last f2 k.data sv.data rest
        simpa [stringifyFields, stringifyChars, quoteEscL,
          List.append_assoc, mk_data] using h
      | cons kv2 fs'' =>
        have hstr' : allStrFields (kv2 :: fs'') = true := by
          simpa [allStrFields] using hstr
        have hih := ih (f2 + 1) rest hstr' (by simp)
          (by simp only [List.length_cons] at hf' ⊢; omega)
        have h := parseCore_member_cons f2 k.data sv.data
          (stringifyFields (kv2 :: fs'') ++ '}' :: rest)
        rw [hih] at h
        simpa [stringifyFields, stringifyChars, quoteEscL,
          List.append_assoc, mk_data] using h
    | null => simp [allStrFields] at hstr
    | bool b => simp [allStrFields] at hstr
    | num n => simp [allStrFields] at hstr
    | arr xs => simp [allStrFields] at hstr
    | obj fs2 => simp [allStrFields] at hstr

/-- A serialized object is never the empty string. -/
theorem jsonStringify_obj_ne_empty (fs : List (String × Json)) :
    jsonStringify (.obj fs) ≠ "" := by
  intro h
  have hd : stringifyChars (.obj fs) = ([] : List Char) := congrArg String.data h
  simp [stringifyChars] at hd

/-- Parsing the serialization of any object with string-valued fields
returns it unchanged — any keys, any order, any number of fields,
arbitrary characters. -/
theorem jsonParse_stringify_strObj (fs : List (String × Json))
    (hstr : allStrFields fs = true) :
    jsonParse (jsonStringify (.obj fs)) = some (.obj fs) := by
  cases fs with
  | nil => rfl
  | cons kv fs' =>
    obtain ⟨k, v⟩ := kv
    cases v with
    | str sv =>
      have hdata : (jsonStringify (.obj ((k, .str sv) :: fs'))).data =
          '{' :: (stringifyFields ((k, .str sv) :: fs') ++ '}' :: []) := by
        show stringifyChars _ = _
        simp [stringifyChars]
      have hhead : ∃ t, stringifyFields ((k, .str sv) :: fs') ++ '}' :: [] =
          '"' :: t := by
        cases fs' with
        | nil =>
          exact ⟨escList k.data ++ '"' :: ':' :: '"' ::
              (escList sv.data ++ ['"', '}']),
            by simp [stringifyFields, stringifyChars, quoteEscL]⟩
        | cons kv2 fs'' =>
          exact ⟨escList k.data ++ '"' :: ':' :: '"' ::
              (escList sv.data ++ '"' :: ',' ::
                (stringifyFields (kv2 :: fs'') ++ ['}'])),
            by simp [stringifyFields, stringifyChars, quoteEscL]⟩
      obtain ⟨t, ht⟩ := hhead
      have hne : ((k, .str sv) :: fs') ≠ ([] : List (String × Json)) := by simp
      have hbound : 2 * ((k, .str sv) :: fs').length ≤
          (jsonStringify (.obj ((k, .str sv) :: fs'))).length := by
        have h1 := stringifyFields_length_ge ((k, .str sv) :: fs') hstr hne
        have h2 : (jsonStringify (.obj ((k, .str sv) :: fs'))).length =
            (stringifyFields ((k, .str sv) :: fs')).length + 2 := by
          show (jsonStringify (.obj ((k, .str sv) :: fs'))).data.length = _
          rw [hdata]
          simp [List.length_append]
        omega
      show (match parseCore
          ((jsonStringify (.obj ((k, .str sv) :: fs'))).length + 1) .pval
          (jsonStringify (.obj ((k, .str sv) :: fs'))).data with
        | some (j, r) => if skipWs r = [] then some j else none
        | none => none) = some (.obj ((k, .str sv) :: fs'))
      rw [hdata, ht, parseCore_obj_entry, ← ht,
        parseCore_members_strFields ((k, .str sv) :: fs') _ [] hstr hne hbound]
      rfl
    | null => simp [allStrFields] at hstr
    | bool b => simp [allStrFields] at hstr
    | num n => simp [allStrFields] at hstr
    | arr xs => simp [allStrFields] at hstr
    | obj fs2 => simp [allStrFields] at hstr

/-! ### Claims about the session round trip and the auth side effects -/

/-- The serialized user record is never the empty string. -/
theorem jsonStringify_user_ne_empty (uid uem : String) :
    jsonStringify (userJson uid uem) ≠ "" := by
  intro h
  have hd := congrArg String.data h
  rw [stringify_user_data] at hd
  simp at hd

/-- C9: storing any user record through `setStoredUser` and reading
it back through `getStoredUser`, in a browser context, returns
exactly the record's JSON value — identical `id` and `email`,
whatever characters they contain. -/
theorem stored_user_roundtrip (u : AuthUser) (s : Store) :
    getStoredUser true (setStoredUser true u s) =
      .ok (some (userJson u.id u.email)) := by
  simp [setStoredUser, getStoredUser, jsonStringify_user_ne_empty,
    jsonParse_stringify_user]

/-- A 2xx response resolves `apiRequest` with the parsed payload and
leaves the store unchanged (2xx is never 401). -/
theorem apiRequest_ok (e : Env) (s : Store) (endpoint : String)
    (opts : RequestOptions) (resp : HttpResponse) (rj : Json)
    (hok : respOk resp.status = true)
    (hparse : parsedBody resp.bodyText = some rj) :
    (apiRequest e s endpoint opts (some resp)).outcome = .ok rj ∧
    (apiRequest e s endpoint opts (some resp)).store = s := by
  have h401 : resp.status ≠ 401 := by
    simp only [respOk, decide_eq_true_eq] at hok
    omega
  constructor <;> simp [apiRequest, hparse, hok, h401]

/-- Behavior of `authApi.login` on a resolved response: outcome and final store. -/
theorem authLogin_ok (e : Env) (email password : String) (s : Store)
    (resp : HttpResponse) (rj : Json) (hok : respOk resp.status = true)
    (hparse : parsedBody resp.bodyText = some rj) :
    authLogin e email password s (some resp) =
      (.ok rj, authTokenStore e.hasWindow rj s) := by
  have h := apiRequest_ok e s "/auth/login"
    { method := "POST",
      body := some (.obj [("email", .str email), ("password", .str password)]) }
    resp rj hok hparse
  simp only [authLogin]
  rw [h.1, h.2]

/-- Behavior of `authApi.register` on a resolved response: outcome and final
store. -/
theorem authRegister_ok (e : Env) (email password : String) (s : Store)
    (resp : HttpResponse) (rj : Json) (hok : respOk resp.status = true)
    (hparse : parsedBody resp.bodyText = some rj) :
    authRegister e email password s (some resp) =
      (.ok rj, authTokenStore e.hasWindow rj s) := by
  have h := apiRequest_ok e s "/auth/register"
    { method := "POST",
      body := some (.obj [("email", .str email), ("password", .str password)]) }
    resp rj hok hparse
  simp only [authRegister]
  rw [h.1, h.2]

/-- The token-store side effect when the response carries a non-empty
string token and any user field. -/
theorem authTokenStore_writes (rj : Json) (s : Store) (T : String)
    (uj : Json) (htok : rj.lookupKey "token" = some (.str T)) (hT : T ≠ "")
    (huser : rj.lookupKey "user" = some uj) :
    authTokenStore true rj s =
      { token := some T, user := some (jsonStringify uj) } := by
  simp [authTokenStore, htok, huser, jsTruthy, hT, setToken, jsToString]

/-- C3 counterexample: a resolved login response whose `token` field
is present but the empty string is covered by the claim ("contains a
token field"), yet `if (response.token)` is falsy there: nothing is
written, the store is unchanged and `getToken` does not return that
token. -/
theorem login_empty_token_counterexample :
    (Json.obj [("success", .bool true), ("message", .str "ok"),
      ("token", .str ""),
      ("user", userJson "u3" "c@d.e")]).lookupKey "token" =
      some (.str "") ∧
    parsedBody "\x7b\"success\":true,\"message\":\"ok\",\"token\":\"\",\"user\":\x7b\"id\":\"u3\",\"email\":\"c@d.e\"\x7d\x7d" =
      some (Json.obj [("success", .bool true), ("message", .str "ok"),
        ("token", .str ""), ("user", userJson "u3" "c@d.e")]) ∧
    (authLogin { envApiUrl := none, hasWindow := true, hostname := "localhost" }
        "user@example.com" "secret" { token := none, user := none }
        (some { status := 200, statusText := "OK",
                bodyText := "\x7b\"success\":true,\"message\":\"ok\",\"token\":\"\",\"user\":\x7b\"id\":\"u3\",\"email\":\"c@d.e\"\x7d\x7d" })).2 =
      { token := none, user := none } ∧
    getToken true
      (authLogin { envApiUrl := none, hasWindow := true, hostname := "localhost" }
        "user@example.com" "secret" { token := none, user := none }
        (some { status := 200, statusText := "OK",
                bodyText := "\x7b\"success\":true,\"message\":\"ok\",\"token\":\"\",\"user\":\x7b\"id\":\"u3\",\"email\":\"c@d.e\"\x7d\x7d" })).2 =
      none := by
  exact ⟨rfl, rfl, rfl, rfl⟩

/-- C3 (amended): a `login` or `register` response that resolves
(2xx) with a *truthy* token — a non-empty string, since the source
guards with `if (response.token)` — and a user field that is a JSON
object with string-valued fields (the `AuthUser` shape, with any
keys, order and arity) writes both into the session store before the
call returns: afterwards `getToken` yields exactly that token and
`getStoredUser` yields a record deep-equal to the response user — in
particular its `email` field equals the response user's email.  A
token field that is present but empty writes nothing, as the
counterexample shows. -/
theorem login_register_store_token (e : Env) (email password : String)
    (s : Store) (resp : HttpResponse) (rj : Json) (T : String)
    (userFs : List (String × Json))
    (hw : e.hasWindow = true) (hok : respOk resp.status = true)
    (hparse : parsedBody resp.bodyText = some rj)
    (htok : rj.lookupKey "token" = some (.str T)) (hT : T ≠ "")
    (huser : rj.lookupKey "user" = some (.obj userFs))
    (hstr : allStrFields userFs = true) :
    ((authLogin e email password s (some resp)).1 = .ok rj ∧
      getToken e.hasWindow (authLogin e email password s (some resp)).2 = some T ∧
      getStoredUser e.hasWindow (authLogin e email password s (some resp)).2 =
        .ok (some (.obj userFs))) ∧
    ((authRegister e email password s (some resp)).1 = .ok rj ∧
      getToken e.hasWindow (authRegister e email password s (some resp)).2 = some T ∧
      getStoredUser e.hasWindow (authRegister e email password s (some resp)).2 =
        .ok (some (.obj userFs))) := by
  rw [authLogin_ok e email password s resp rj hok hparse,
    authRegister_ok e email password s resp rj hok hparse, hw,
    authTokenStore_writes rj s T (.obj userFs) htok hT huser]
  refine ⟨⟨rfl, rfl, ?_⟩, ⟨rfl, rfl, ?_⟩⟩ <;>
    simp [getStoredUser, jsonStringify_obj_ne_empty,
      jsonParse_stringify_strObj _ hstr]

/-- C3 witness: a concrete successful login response with token `T1`
and user `user@example.com` ends with that token and that user
readable from the store. -/
theorem login_register_store_token_witness :
    getToken true
      (authLogin { envApiUrl := none, hasWindow := true, hostname := "localhost" }
        "user@example.com" "secret" { token := none, user := none }
        (some { status := 200, statusText := "OK",
                bodyText := "\x7b\"success\":true,\"message\":\"ok\",\"token\":\"T1\",\"user\":\x7b\"id\":\"u-1\",\"email\":\"user@example.com\"\x7d\x7d" })).2 =
      some "T1" ∧
    getStoredUser true
      (authLogin { envApiUrl := none, hasWindow := true, hostname := "localhost" }
        "user@example.com" "secret" { token := none, user := none }
        (some { status := 200, statusText := "OK",
                bodyText := "\x7b\"success\":true,\"message\":\"ok\",\"token\":\"T1\",\"user\":\x7b\"id\":\"u-1\",\"email\":\"user@example.com\"\x7d\x7d" })).2 =
      .ok (some (userJson "u-1" "user@example.com")) := by
  have h := login_register_store_token
    { envApiUrl := none, hasWindow := true, hostname := "localhost" }
    "user@example.com" "secret" { token := none, user := none }
    { status := 200, statusText := "OK",
      bodyText := "\x7b\"success\":true,\"message\":\"ok\",\"token\":\"T1\",\"user\":\x7b\"id\":\"u-1\",\"email\":\"user@example.com\"\x7d\x7d" }
    (.obj [("success", .bool true), ("message", .str "ok"),
      ("token", .str "T1"),
      ("user", userJson "u-1" "user@example.com")])
    "T1" [("id", .str "u-1"), ("email", .str "user@example.com")]
    rfl (by decide) rfl rfl (by decide) rfl rfl
  exact ⟨h.1.2.1, h.1.2.2⟩

/-- C10: a `login` or `register` response that carries no `token`
field — even a successful one that carries a user record — leaves the
session store exactly as it was: no slot is written. -/
theorem login_register_no_token_no_write (e : Env)
    (email password : String) (s : Store) (resp : HttpResponse) (rj : Json)
    (hok : respOk resp.status = true)
    (hparse : parsedBody resp.bodyText = some rj)
    (htok : rj.lookupKey "token" = none) :
    (authLogin e email password s (some resp)).2 = s ∧
    (authRegister e email password s (some resp)).2 = s := by
  rw [authLogin_ok e email password s resp rj hok hparse,
    authRegister_ok e email password s resp rj hok hparse]
  constructor <;> simp [authTokenStore, htok]

/-- C10 witness: a concrete 200 registration response with
`success:true` and a user record but no token leaves a previously
empty store empty. -/
theorem login_register_no_token_no_write_witness :
    (authRegister { envApiUrl := none, hasWindow := true, hostname := "localhost" }
        "b@c.d" "password1" { token := none, user := none }
        (some { status := 200, statusText := "OK",
                bodyText := "\x7b\"success\":true,\"message\":\"created\",\"user\":\x7b\"id\":\"u2\",\"email\":\"b@c.d\"\x7d\x7d" })).2 =
      { token := none, user := none } := by
  exact (login_register_no_token_no_write
    { envApiUrl := none, hasWindow := true, hostname := "localhost" }
    "b@c.d" "password1" { token := none, user := none }
    { status := 200, statusText := "OK",
      bodyText := "\x7b\"success\":true,\"message\":\"created\",\"user\":\x7b\"id\":\"u2\",\"email\":\"b@c.d\"\x7d\x7d" }
    (.obj [("success", .bool true), ("message", .str "created"),
      ("user", userJson "u2" "b@c.d")])
    (by decide) rfl rfl).2

end HsWeb
